import Mathlib

/-!
# Verification of the go-chatroom server and client

Shallow embedding of `chatroom_server.go` (connection pool, broadcast,
session handling) and of the chat client (send/read wrappers, keepalive
loop), together with theorems settling the specification claims.

Connections are identified by opaque identities (`Conn := Nat`).  Transport
behaviour (which websocket writes fail, which reads error) is supplied to
each embedded function as an explicit oracle, since the Go code observes it
only through `websocket.Message.Send` / `Receive` return values.
-/

namespace Chatroom

/-- Identity of one websocket connection (`*websocket.Conn`). -/
abbrev Conn := Nat

/-! ## `removeConn` (chatroom_server.go, lines 69–84)

The Go helper scans `slice` with an indexed loop for the first element equal
to `elem`; at that index `i` it returns `append(slice[:i], slice[i+1:]...)`,
otherwise it returns the original slice.  The preallocated
`newSlice := make([]*websocket.Conn, newSliceLen)` is overwritten before any
use, so it has no effect on the returned value and is not represented here. -/

/-- Index of the first occurrence of `elem` in `slice` — the loop counter `i`
at which the Go loop's `origElem == elem` test first succeeds. -/
def findConnIdx (slice : List Conn) (elem : Conn) : Option Nat :=
  match slice with
  | [] => none
  | c :: rest => if c = elem then some 0 else (findConnIdx rest elem).map (· + 1)

/-- Go helper `removeConn(slice, elem)`: splice out the first occurrence of
`elem` (`append(slice[:i], slice[i+1:]...)`), or return `slice` unchanged
when `elem` does not occur. -/
def removeConn (slice : List Conn) (elem : Conn) : List Conn :=
  match findConnIdx slice elem with
  | some i => slice.take i ++ slice.drop (i + 1)
  | none => slice

/-! ## `connPool.execute` (chatroom_server.go, lines 40–56) -/

/-- A request arriving on one of the pool's channels. -/
inductive PoolEvent where
  | register (c : Conn)
  | unregister (c : Conn)
deriving DecidableEq, Repr

/-- One iteration of `execute`'s `select`: a `register` event appends the
connection to `c.connections`; an `unregister` event runs `removeConn`. -/
def execute (connections : List Conn) : PoolEvent → List Conn
  | PoolEvent.register r => connections ++ [r]
  | PoolEvent.unregister r => removeConn connections r

/-! ## `ChatServer.Broadcast` (chatroom_server.go, lines 123–133)

`Broadcast` ranges over `s.serverConnPool.connections`, sending the message
to each.  On the first failed send it pushes that connection onto the
`unregister` channel and returns the error, so no later member is attempted.
`failed` is the transport oracle: the set of connections whose transport is
severed, i.e. on which `websocket.Message.Send` errors. -/

/-- Result of one `Broadcast` call: the members the message was delivered to
(in iteration order), the connection pool after any `unregister` event it
raised has been processed by `execute`, and the returned error (the failed
connection), if any. -/
structure BroadcastResult where
  delivered : List Conn
  pool : List Conn
  err : Option Conn
deriving DecidableEq, Repr

/-- The `for _, ws := range connections` loop of `Broadcast`: `pool` is the
pool the `unregister` event acts on, `todo` the members still to deliver to. -/
def broadcastGo (failed : List Conn) (pool : List Conn) : List Conn → BroadcastResult
  | [] => BroadcastResult.mk [] pool none
  | c :: rest =>
    if c ∈ failed then BroadcastResult.mk [] (removeConn pool c) (some c)
    else
      let r := broadcastGo failed pool rest
      BroadcastResult.mk (c :: r.delivered) r.pool r.err

/-- The call `Broadcast(message)` over the current pool `connections`. -/
def broadcast (failed : List Conn) (connections : List Conn) : BroadcastResult :=
  broadcastGo failed connections connections

/-! ## `ChatServer.readMessage` and `ChatServer.registerServer`
(chatroom_server.go, lines 88–120) -/

/-- Outcome of one blocking `websocket.Message.Receive` call. -/
inductive RecvEvent where
  | msg (payload : String)
  | err
deriving DecidableEq, Repr

/-- Observable actions of a session handler, in program order. -/
inductive Action where
  | register (c : Conn)
  | unregister (c : Conn)
  | broadcast (payload : String)
  | close (c : Conn)
deriving DecidableEq, Repr

/-- The receive loop of `readMessage` over a (finite prefix of a) stream of
receive outcomes: each received payload is broadcast; the first receive
error pushes the connection onto the `unregister` channel and returns.  The
boolean records whether the loop returned (`true`) or is still blocked
waiting for a further receive (`false`, when `events` ran out). -/
def readMessage (ws : Conn) : List RecvEvent → List Action × Bool
  | [] => ([], false)
  | RecvEvent.msg m :: rest =>
    let r := readMessage ws rest
    (Action.broadcast m :: r.1, r.2)
  | RecvEvent.err :: _ => ([Action.unregister ws], true)

/-- The handler `registerServer`: extract `pwd` from the request query (`params.Get`
yields `""` when the parameter is absent, hence the `Option.getD ""`);
admit when the configured password is empty or matches; an admitted session
is pushed onto the `register` channel and enters `readMessage`; the deferred
`ws.Close()` runs when the handler returns.  The result is the session's
action trace. -/
def registerServer (spassword : String) (pwdParam : Option String) (ws : Conn)
    (events : List RecvEvent) : List Action :=
  let password := pwdParam.getD ""
  if spassword = "" ∨ spassword = password then
    let r := readMessage ws events
    Action.register ws :: (r.1 ++ if r.2 then [Action.close ws] else [])
  else
    [Action.close ws]

/-! ## Chat client (`ChatClient.Send`, `ChatClient.Read`, client file
lines 62–84) -/

/-- Client state: a `nil` connection is `none` (before `Register`). -/
structure ChatClient where
  ClientID : String
  conn : Option Conn
deriving DecidableEq, Repr

/-- The distinguishable error conditions the client reports. -/
inductive ClientError where
  /-- Reported as "Websocket connection do not establish, please register first." -/
  | notConnected
  /-- Reported as "Can not send message to server: ..." -/
  | sendFailed
  /-- Reported as "Can not receive message from server: ..." -/
  | receiveFailed
deriving DecidableEq, Repr

/-- The method `c.Send(message)`: with no established connection, fail without touching
the transport; otherwise attempt the websocket send (`sendOk` is the
transport oracle).  Returns the result, the client state after the call,
and the list of connections on which transport I/O was attempted. -/
def ChatClient.Send (c : ChatClient) (sendOk : Conn → Bool) (_message : String) :
    Except ClientError Unit × ChatClient × List Conn :=
  match c.conn with
  | none => (Except.error ClientError.notConnected, c, [])
  | some ws =>
    if sendOk ws then (Except.ok (), c, [ws])
    else (Except.error ClientError.sendFailed, c, [ws])

/-- The method `c.Read()`: with no established connection, fail without touching the
transport; otherwise attempt the websocket receive (`recvResult ws` is the
payload, `none` meaning a transport error). -/
def ChatClient.Read (c : ChatClient) (recvResult : Conn → Option String) :
    Except ClientError String × ChatClient × List Conn :=
  match c.conn with
  | none => (Except.error ClientError.notConnected, c, [])
  | some ws =>
    match recvResult ws with
    | some m => (Except.ok m, c, [ws])
    | none => (Except.error ClientError.receiveFailed, c, [ws])

/-! ## `keepWebsocketAlive` (client file, lines 88–97) -/

/-- Observable actions of the keepalive goroutine. -/
inductive KeepaliveAction where
  | sleep (seconds : Nat)
  | send (payload : String)
  | close
deriving DecidableEq, Repr

/-- The keepalive loop: sleep 60 seconds, send `"heartbeat"`, repeat; on a
failed send, return — running the deferred `ws.Close()`.  `results` is the
transport oracle listing the outcome of each successive send; when it runs
out the loop is still running (no `close` emitted). -/
def keepWebsocketAlive : List Bool → List KeepaliveAction
  | [] => []
  | ok :: rest =>
    KeepaliveAction.sleep 60 :: KeepaliveAction.send "heartbeat" ::
      (if ok then keepWebsocketAlive rest else [KeepaliveAction.close])

/-- Trace shape of `n` successful keepalive rounds: `sleep 60; send
"heartbeat"` repeated `n` times. -/
def heartbeatRounds : Nat → List KeepaliveAction
  | 0 => []
  | n + 1 => KeepaliveAction.sleep 60 :: KeepaliveAction.send "heartbeat" :: heartbeatRounds n

/-! ## Query-string layer (client `Register`, line 50, against the server's
`ws.Request().URL.Query().Get("pwd")`)

The client sets `url_.RawQuery = "pwd=" + password` verbatim (no escaping);
`URL.String()` forwards `RawQuery` unchanged, so the server's handshake
parses exactly the raw string `"pwd=" ++ p`.  The definitions below model
Go's `net/url` query parsing (`ParseQuery`, `QueryUnescape`, `Values.Get`)
on ASCII strings, as `List Char`. -/

/-- Go's `strings.Cut(s, sep)` for a one-character separator: the part before the
first `sep` and the part after it (`(s, "")` when `sep` is absent). -/
def cut (sep : Char) : List Char → List Char × List Char
  | [] => ([], [])
  | c :: rest =>
    if c = sep then ([], rest)
    else
      let r := cut sep rest
      (c :: r.1, r.2)

/-- Split on every occurrence of `sep` (the `strings.Cut(query, "&")` loop
of `ParseQuery`; empty segments are produced here and skipped by
`parseQuerySeg`, matching the Go loop's `if key == "" continue`). -/
def splitList (sep : Char) : List Char → List (List Char)
  | [] => [[]]
  | c :: rest =>
    let r := splitList sep rest
    if c = sep then [] :: r
    else
      match r with
      | [] => [[c]]
      | h :: t => (c :: h) :: t

def isHexDigit (c : Char) : Bool :=
  (('0' ≤ c) && (c ≤ '9')) || (('a' ≤ c) && (c ≤ 'f')) || (('A' ≤ c) && (c ≤ 'F'))

def hexVal (c : Char) : Nat :=
  if ('0' ≤ c) && (c ≤ '9') then c.toNat - '0'.toNat
  else if ('a' ≤ c) && (c ≤ 'f') then c.toNat - 'a'.toNat + 10
  else c.toNat - 'A'.toNat + 10

/-- Go's `url.QueryUnescape`: `%XY` with two hex digits decodes to the byte
it denotes, `+` decodes to a space, a malformed `%` escape is an error
(`none`); every other character is passed through. -/
def queryUnescape : List Char → Option (List Char)
  | [] => some []
  | c :: rest =>
    if c = '%' then
      match rest with
      | a :: b :: rest2 =>
        if isHexDigit a && isHexDigit b then
          (queryUnescape rest2).map (fun r => Char.ofNat (16 * hexVal a + hexVal b) :: r)
        else none
      | _ => none
    else if c = '+' then (queryUnescape rest).map (fun r => ' ' :: r)
    else (queryUnescape rest).map (fun r => c :: r)

/-- One segment of `ParseQuery`'s loop body: a segment containing `;` is
rejected, an empty segment is skipped, otherwise it is cut at the first `=`
and both halves are query-unescaped (a failed unescape drops the pair). -/
def parseQuerySeg (seg : List Char) : Option (List Char × List Char) :=
  if ';' ∈ seg then none
  else if seg = [] then none
  else
    let kv := cut '=' seg
    match queryUnescape kv.1, queryUnescape kv.2 with
    | some k, some v => some (k, v)
    | _, _ => none

/-- Go's `url.ParseQuery` as an ordered association list of decoded pairs. -/
def parseQuery (query : List Char) : List (List Char × List Char) :=
  (splitList '&' query).filterMap parseQuerySeg

/-- Go's `Values.Get(key)`: the first value associated to `key`, `""` if none. -/
def queryGet (pairs : List (List Char × List Char)) (key : List Char) : List Char :=
  match pairs.find? (fun p => p.1 = key) with
  | some p => p.2
  | none => []

/-- The password the server's handshake extracts when the client registered
with password `p`: the raw query is the unescaped concatenation
`"pwd=" ++ p` (client `Register`, line 50), parsed by the server via
`URL.Query().Get("pwd")`. -/
def serverPwd (p : List Char) : List Char :=
  queryGet (parseQuery ("pwd=".toList ++ p)) "pwd".toList

/-! ## Helper lemmas -/

theorem removeConn_cons (c elem : Conn) (rest : List Conn) :
    removeConn (c :: rest) elem =
      if c = elem then rest else c :: removeConn rest elem := by
  by_cases h : c = elem
  · simp [removeConn, findConnIdx, h]
  · simp only [removeConn, findConnIdx, if_neg h]
    cases hfi : findConnIdx rest elem with
    | none => simp
    | some i => simp

theorem removeConn_eq_erase (slice : List Conn) (elem : Conn) :
    removeConn slice elem = slice.erase elem := by
  induction slice with
  | nil => rfl
  | cons c rest ih =>
    rw [removeConn_cons, List.erase_cons]
    by_cases h : c = elem
    · simp [h]
    · simp [h, ih]

theorem removeConn_of_not_mem (slice : List Conn) (elem : Conn) (h : elem ∉ slice) :
    removeConn slice elem = slice := by
  rw [removeConn_eq_erase]
  exact List.erase_of_not_mem h

theorem removeConn_append_first (pre post : List Conn) (f : Conn) (hf : f ∉ pre) :
    removeConn (pre ++ f :: post) f = pre ++ post := by
  rw [removeConn_eq_erase, List.erase_append_right _ hf, List.erase_cons_head]

theorem broadcastGo_all_ok (failed pool todo : List Conn)
    (h : ∀ c ∈ todo, c ∉ failed) :
    broadcastGo failed pool todo = BroadcastResult.mk todo pool none := by
  induction todo with
  | nil => rfl
  | cons c rest ih =>
    have hc : c ∉ failed := h c (List.mem_cons_self c rest)
    simp [broadcastGo, hc, ih fun x hx => h x (List.mem_cons_of_mem c hx)]

theorem broadcastGo_first_failure (failed pool : List Conn) (f : Conn) (post : List Conn)
    (hf : f ∈ failed) :
    ∀ pre : List Conn, (∀ c ∈ pre, c ∉ failed) →
      broadcastGo failed pool (pre ++ f :: post) =
        BroadcastResult.mk pre (removeConn pool f) (some f) := by
  intro pre
  induction pre with
  | nil => intro _; simp [broadcastGo, hf]
  | cons c rest ih =>
    intro h
    have hc : c ∉ failed := h c (List.mem_cons_self c rest)
    simp [broadcastGo, hc, ih fun x hx => h x (List.mem_cons_of_mem c hx)]

/-! ## Claim C1 — broadcast with one failed member -/

/-- C1, counterexample: in a pool of two connections where the first one's
transport is severed, `Broadcast` delivers to nobody — the remaining healthy
member (connection 1) does not receive the message, refuting "delivery
continues to all remaining members".  (The failed member is evicted, so the
pool does shrink by one.) -/
theorem broadcast_aborts_on_first_failure :
    (broadcast [0] [0, 1]).delivered = [] ∧
    1 ∉ (broadcast [0] [0, 1]).delivered ∧
    (broadcast [0] [0, 1]).pool = [1] := by decide

/-- C1, amended: when exactly one member's transport is severed, `Broadcast`
delivers the message to the members strictly preceding the failed one in
pool order, evicts exactly the failed member (the pool shrinks by exactly
one), and returns the error — members after the failed one are not
delivered to, because the loop aborts on the first failed send. -/
theorem broadcast_single_failure_delivers_prefix (pre post : List Conn) (f : Conn)
    (hf : f ∉ pre) :
    broadcast [f] (pre ++ f :: post) = BroadcastResult.mk pre (pre ++ post) (some f) ∧
    (pre ++ f :: post).length = (pre ++ post).length + 1 := by
  constructor
  · have hp : ∀ c ∈ pre, c ∉ ([f] : List Conn) := by
      intro c hc hcf
      exact hf ((List.mem_singleton.mp hcf) ▸ hc)
    rw [broadcast, broadcastGo_first_failure [f] _ f post (List.mem_singleton_self f) pre hp,
      removeConn_append_first pre post f hf]
  · simp only [List.length_append, List.length_cons]
    omega

/-- C1, witness: pool `[1, 0, 2]` with connection `0` severed — `1` gets the
message, `0` is evicted, `2` is skipped. -/
theorem broadcast_single_failure_delivers_prefix_witness :
    broadcast [0] [1, 0, 2] = BroadcastResult.mk [1] [1, 2] (some 0) ∧
    ([1, 0, 2] : List Conn).length = ([1, 2] : List Conn).length + 1 := by
  simpa using broadcast_single_failure_delivers_prefix [1] [2] 0 (by decide)

/-! ## Claim C4 — `removeConn` -/

/-- C4, counterexample: on a slice holding the same connection twice,
`removeConn` removes only the first occurrence, so the element is still
present after one removal and a second removal is not a no-op — "Remove(x)
called twice has the same effect as calling it once" fails on `[0, 0]`. -/
theorem removeConn_not_idempotent_on_duplicates :
    removeConn [0, 0] 0 = [0] ∧
    0 ∈ removeConn [0, 0] 0 ∧
    removeConn (removeConn [0, 0] 0) 0 = [] ∧
    removeConn (removeConn [0, 0] 0) 0 ≠ removeConn [0, 0] 0 := by decide

/-- C4, amended: `removeConn` removes the first occurrence of `elem`
(`List.erase`) despite the unused wrong-length preallocation; removing an
absent element returns the original slice unchanged, and removal is
idempotent whenever `elem` occurs at most once in the slice (in particular
on duplicate-free slices). -/
theorem removeConn_spec (slice : List Conn) (elem : Conn) :
    removeConn slice elem = slice.erase elem ∧
    (elem ∉ slice → removeConn slice elem = slice) ∧
    (slice.count elem ≤ 1 →
      removeConn (removeConn slice elem) elem = removeConn slice elem) := by
  refine ⟨removeConn_eq_erase slice elem, removeConn_of_not_mem slice elem, fun h => ?_⟩
  rw [removeConn_eq_erase, removeConn_eq_erase]
  have hnm : elem ∉ slice.erase elem := by
    intro hmem
    have h1 : 0 < (slice.erase elem).count elem := List.count_pos_iff.mpr hmem
    have h2 := List.count_erase_self elem slice
    omega
  exact List.erase_of_not_mem hnm

/-- C4, witness: concrete removals on `[1, 2, 3]` and on the `2`-free `[5]`. -/
theorem removeConn_spec_witness :
    removeConn [1, 2, 3] 2 = List.erase [1, 2, 3] 2 ∧
    removeConn [5] 2 = [5] ∧
    removeConn (removeConn [1, 2, 3] 2) 2 = removeConn [1, 2, 3] 2 :=
  ⟨(removeConn_spec [1, 2, 3] 2).1,
   (removeConn_spec [5] 2).2.1 (by decide),
   (removeConn_spec [1, 2, 3] 2).2.2 (by decide)⟩

/-! ## Claim C5 — re-registration of a present connection -/

/-- C5, counterexample: `execute` handles a `register` event for a
connection already in the pool by appending it again, so the membership
holds identity `0` twice, and a broadcast over that pool delivers the
message to connection `0` twice. -/
theorem readd_duplicate_counterexample :
    execute [0] (PoolEvent.register 0) = [0, 0] ∧
    (execute [0] (PoolEvent.register 0)).count 0 = 2 ∧
    (broadcast [] (execute [0] (PoolEvent.register 0))).delivered.count 0 = 2 := by decide

/-- C5, amended: a `register` event always appends — re-adding an
already-present connection increments its multiplicity in the membership
rather than being rejected or deduplicated — and a broadcast over a pool
with no severed transports delivers to each entry, so a connection present
`k` times receives the same message `k` times. -/
theorem register_appends_duplicate (connections pool : List Conn) (r : Conn) :
    (execute connections (PoolEvent.register r)).count r = connections.count r + 1 ∧
    (broadcast [] pool).delivered.count r = pool.count r := by
  constructor
  · simp [execute]
  · rw [broadcast, broadcastGo_all_ok [] pool pool (by simp)]

/-- C5, witness: re-adding `0` to the pool `[0]` and broadcasting over the
resulting pool `[0, 0]`. -/
theorem register_appends_duplicate_witness :
    (execute [0] (PoolEvent.register 0)).count 0 = List.count 0 [0] + 1 ∧
    (broadcast [] [0, 0]).delivered.count 0 = List.count 0 [0, 0] :=
  register_appends_duplicate [0] [0, 0] 0

/-! ## Claim C7 — loop-back to the sender -/

/-- C7, counterexample: with the three registered connections `0`, `1`, `2`
all healthy, a broadcast (of A's `"hello"`) is delivered to all three —
including `0`, the sender's own connection — refuting "A does not receive
its own message". -/
theorem broadcast_loopback_counterexample :
    (broadcast [] [0, 1, 2]).delivered = [0, 1, 2] ∧
    0 ∈ (broadcast [] [0, 1, 2]).delivered := by decide

/-- C7, amended: a broadcast over healthy transports delivers to exactly
the registered connections in pool order, the sender's own connection
included — B and C each receive `"hello"`, and so does A. -/
theorem broadcast_delivers_to_all_including_sender (failed connections : List Conn)
    (sender : Conn) (hs : sender ∈ connections) (h : ∀ c ∈ connections, c ∉ failed) :
    broadcast failed connections = BroadcastResult.mk connections connections none ∧
    sender ∈ (broadcast failed connections).delivered := by
  have hall : broadcast failed connections = BroadcastResult.mk connections connections none := by
    rw [broadcast, broadcastGo_all_ok failed connections connections h]
  exact ⟨hall, by rw [hall]; exact hs⟩

/-- C7, witness: pool `{0, 1, 2}`, sender `0`, no severed transports. -/
theorem broadcast_delivers_to_all_including_sender_witness :
    broadcast [] [0, 1, 2] = BroadcastResult.mk [0, 1, 2] [0, 1, 2] none ∧
    0 ∈ (broadcast [] [0, 1, 2]).delivered :=
  broadcast_delivers_to_all_including_sender [] [0, 1, 2] 0 (by decide) (by decide)

/-! ## Claim C3 — admission -/

/-- C3: a session registers (its trace contains the `register` event) if and
only if the configured password is empty or equals the supplied `pwd`
parameter (absent `pwd` reads as `""`); otherwise the session's whole trace
is the single transport close — no registration and zero registry
mutations.  In particular an empty configured password admits any attempt,
with any or no `pwd`. -/
theorem registerServer_admission (spassword : String) (pwdParam : Option String)
    (ws : Conn) (events : List RecvEvent) :
    (Action.register ws ∈ registerServer spassword pwdParam ws events ↔
      (spassword = "" ∨ spassword = pwdParam.getD "")) ∧
    (¬(spassword = "" ∨ spassword = pwdParam.getD "") →
      registerServer spassword pwdParam ws events = [Action.close ws]) := by
  by_cases h : spassword = "" ∨ spassword = pwdParam.getD ""
  · refine ⟨⟨fun _ => h, fun _ => ?_⟩, fun hn => absurd h hn⟩
    simp [registerServer, h]
  · refine ⟨⟨fun hmem => ?_, fun hh => absurd hh h⟩, fun _ => by simp [registerServer, h]⟩
    simp [registerServer, h] at hmem

/-- C3, witness: the correct secret admits, a wrong secret yields the bare
close trace, and the public room (secret `""`) admits an absent `pwd`. -/
theorem registerServer_admission_witness :
    Action.register 0 ∈ registerServer "s3cr3t" (some "s3cr3t") 0 [] ∧
    registerServer "s3cr3t" (some "wrong") 0 [] = [Action.close 0] ∧
    Action.register 0 ∈ registerServer "" none 0 [] :=
  ⟨(registerServer_admission "s3cr3t" (some "s3cr3t") 0 []).1.mpr (Or.inr rfl),
   (registerServer_admission "s3cr3t" (some "wrong") 0 []).2 (by decide),
   (registerServer_admission "" none 0 []).1.mpr (Or.inl rfl)⟩

/-! ## Claim C6 — teardown order on receive error -/

/-- `readMessage` over messages followed by a receive error: broadcast each
payload, then push the `unregister` event and return. -/
theorem readMessage_trace (ws : Conn) (msgs : List String) (rest : List RecvEvent) :
    readMessage ws (msgs.map RecvEvent.msg ++ RecvEvent.err :: rest) =
      (msgs.map Action.broadcast ++ [Action.unregister ws], true) := by
  induction msgs with
  | nil => rfl
  | cons m ms ih => simp [readMessage, ih]

/-- C6: an admitted session that receives `msgs` and then hits a receive
error produces exactly the trace
`register; broadcast …; unregister; close` — on the error the connection is
first removed from the registry and then its transport is closed, the
trace ends there (the `Closed` state is absorbing: whatever `rest` of the
stream follows contributes no further actions). -/
theorem session_error_teardown (spassword : String) (pwdParam : Option String)
    (ws : Conn) (msgs : List String) (rest : List RecvEvent)
    (hadm : spassword = "" ∨ spassword = pwdParam.getD "") :
    registerServer spassword pwdParam ws (msgs.map RecvEvent.msg ++ RecvEvent.err :: rest) =
      Action.register ws :: msgs.map Action.broadcast ++
        [Action.unregister ws, Action.close ws] := by
  simp [registerServer, hadm, readMessage_trace]

/-- C6, witness: a public-room session that broadcasts `"hi"` and then hits
a receive error; the later event in the stream is never acted on. -/
theorem session_error_teardown_witness :
    registerServer "" none 0
        [RecvEvent.msg "hi", RecvEvent.err, RecvEvent.msg "late"] =
      [Action.register 0, Action.broadcast "hi", Action.unregister 0, Action.close 0] := by
  simpa using session_error_teardown "" none 0 ["hi"] [RecvEvent.msg "late"] (Or.inl rfl)

/-! ## Claim C8 — client `Send`/`Read` before registration -/

/-- C8: with no established connection, `Send` and `Read` fail with the
"not connected" condition, attempt no transport I/O, and leave the client
unchanged; on an established connection whose transport fails, they fail
with the distinct "delivery failed" conditions after attempting the
transport operation. -/
theorem client_not_connected_distinct (c c2 : ChatClient) (ws : Conn)
    (sendOk : Conn → Bool) (recvResult : Conn → Option String) (message : String)
    (h : c.conn = none) (h2 : c2.conn = some ws)
    (hsend : sendOk ws = false) (hrecv : recvResult ws = none) :
    c.Send sendOk message = (Except.error ClientError.notConnected, c, []) ∧
    c.Read recvResult = (Except.error ClientError.notConnected, c, []) ∧
    c2.Send sendOk message = (Except.error ClientError.sendFailed, c2, [ws]) ∧
    c2.Read recvResult = (Except.error ClientError.receiveFailed, c2, [ws]) ∧
    ClientError.notConnected ≠ ClientError.sendFailed ∧
    ClientError.notConnected ≠ ClientError.receiveFailed := by
  refine ⟨?_, ?_, ?_, ?_, by simp, by simp⟩
  · simp [ChatClient.Send, h]
  · simp [ChatClient.Read, h]
  · simp [ChatClient.Send, h2, hsend]
  · simp [ChatClient.Read, h2, hrecv]

/-- C8, witness: an unregistered client `"A"` and a registered client `"B"`
on a dead transport. -/
theorem client_not_connected_distinct_witness :
    (ChatClient.mk "A" none).Send (fun _ => false) "hi" =
      (Except.error ClientError.notConnected, ChatClient.mk "A" none, []) ∧
    (ChatClient.mk "A" none).Read (fun _ => none) =
      (Except.error ClientError.notConnected, ChatClient.mk "A" none, []) ∧
    (ChatClient.mk "B" (some 0)).Send (fun _ => false) "hi" =
      (Except.error ClientError.sendFailed, ChatClient.mk "B" (some 0), [0]) ∧
    (ChatClient.mk "B" (some 0)).Read (fun _ => none) =
      (Except.error ClientError.receiveFailed, ChatClient.mk "B" (some 0), [0]) ∧
    ClientError.notConnected ≠ ClientError.sendFailed ∧
    ClientError.notConnected ≠ ClientError.receiveFailed :=
  client_not_connected_distinct (ChatClient.mk "A" none) (ChatClient.mk "B" (some 0)) 0
    (fun _ => false) (fun _ => none) "hi" rfl rfl rfl rfl

/-! ## Claim C9 — keepalive loop -/

/-- C9: after `k` successful sends and one failed send, the keepalive trace
is exactly `k + 1` rounds of "sleep 60 time-units, then send the
`"heartbeat"` sentinel" followed by a single transport close — the loop
stops at the first send failure and closes the client's transport; while
every send succeeds, the trace is just the repeated rounds (the loop runs
for the connection's lifetime and never closes on its own). -/
theorem keepWebsocketAlive_spec (k : Nat) (rest : List Bool) :
    keepWebsocketAlive (List.replicate k true ++ false :: rest) =
      heartbeatRounds (k + 1) ++ [KeepaliveAction.close] ∧
    keepWebsocketAlive (List.replicate k true) = heartbeatRounds k := by
  induction k with
  | zero => exact ⟨rfl, rfl⟩
  | succ n ih =>
    constructor
    · simp [List.replicate_succ, keepWebsocketAlive, heartbeatRounds, ih.1]
    · simp [List.replicate_succ, keepWebsocketAlive, heartbeatRounds, ih.2]

/-- C9, witness: two successful heartbeats followed by a failed send. -/
theorem keepWebsocketAlive_spec_witness :
    keepWebsocketAlive (List.replicate 2 true ++ false :: []) =
      heartbeatRounds (2 + 1) ++ [KeepaliveAction.close] ∧
    keepWebsocketAlive (List.replicate 2 true) = heartbeatRounds 2 :=
  keepWebsocketAlive_spec 2 []

/-! ## Claim C10 — password round-trip through the raw query -/

theorem splitList_no_sep (sep : Char) (l : List Char) (h : sep ∉ l) :
    splitList sep l = [l] := by
  induction l with
  | nil => rfl
  | cons c rest ih =>
    have hc : ¬c = sep := fun e => h (e ▸ List.mem_cons_self c rest)
    have hr : sep ∉ rest := fun e => h (List.mem_cons_of_mem c e)
    simp [splitList, hc, ih hr]

theorem queryUnescape_id (l : List Char) (h : ∀ c ∈ l, c ≠ '%' ∧ c ≠ '+') :
    queryUnescape l = some l := by
  induction l with
  | nil => rfl
  | cons c rest ih =>
    have hc := h c (List.mem_cons_self c rest)
    have hr := ih fun x hx => h x (List.mem_cons_of_mem c hx)
    rw [queryUnescape.eq_def]
    simp [hc.1, hc.2, hr]

theorem cut_pwd (p : List Char) : cut '=' ("pwd=".toList ++ p) = ("pwd".toList, p) := rfl

/-- C10, counterexample: the client builds the raw query by bare
concatenation, so for the password `"a&b"` the server's query parse splits
at the `&` and extracts `"a"` — the encoding does not round-trip for every
password string. -/
theorem pwd_roundtrip_counterexample :
    serverPwd "a&b".toList = "a".toList ∧ "a".toList ≠ "a&b".toList := by decide

/-- C10, amended: the unescaped `"pwd=" ++ p` raw query round-trips through
the server's query parsing exactly for passwords free of the query
metacharacters `&`, `;`, `%` and `+` (an embedded `=` is harmless, since
the parse cuts at the first `=`); outside that class the extracted value
can differ from `p`. -/
theorem pwd_roundtrip_urlsafe (p : List Char)
    (hp : ∀ c ∈ p, c ≠ '&' ∧ c ≠ ';' ∧ c ≠ '%' ∧ c ≠ '+') :
    serverPwd p = p := by
  have hamp : '&' ∉ "pwd=".toList ++ p := by
    intro hmem
    rcases List.mem_append.mp hmem with h1 | h2
    · revert h1; decide
    · exact (hp _ h2).1 rfl
  have hsemi : ';' ∉ "pwd=".toList ++ p := by
    intro hmem
    rcases List.mem_append.mp hmem with h1 | h2
    · revert h1; decide
    · exact (hp _ h2).2.1 rfl
  have hne : ¬("pwd=".toList ++ p = []) := by
    show ¬('p' :: 'w' :: 'd' :: '=' :: p = [])
    simp
  have hseg : parseQuerySeg ("pwd=".toList ++ p) = some ("pwd".toList, p) := by
    rw [parseQuerySeg, if_neg hsemi, if_neg hne, cut_pwd]
    have hk : queryUnescape "pwd".toList = some "pwd".toList := by decide
    have hv : queryUnescape p = some p :=
      queryUnescape_id p fun c hc => ⟨(hp c hc).2.2.1, (hp c hc).2.2.2⟩
    show (match queryUnescape "pwd".toList, queryUnescape p with
      | some k, some v => some (k, v)
      | _, _ => none) = some ("pwd".toList, p)
    rw [hk, hv]
  rw [serverPwd, parseQuery, splitList_no_sep '&' _ hamp, List.filterMap_cons, hseg,
    List.filterMap_nil, queryGet, List.find?_cons_of_pos _ (by simp)]

/-- C10, witness: the password `"a=b"` (URL-safe in the amended sense, with
an embedded `=`) survives the round-trip. -/
theorem pwd_roundtrip_urlsafe_witness : serverPwd "a=b".toList = "a=b".toList :=
  pwd_roundtrip_urlsafe "a=b".toList (by decide)

end Chatroom
